import Mathlib

/-!
Verification of the CLIgent agent orchestration loop (`src/cligent.py`).

The Python source is shallowly embedded: pure string manipulation is
translated to executable Lean functions over `String`/`List Char`; the
effectful orchestration functions (`process_user_prompt`,
`handle_run_commands`, `handle_error_recursion`, `create_history_block`,
…) are translated to state-passing functions over an explicit `World`
that schedules the outcomes of the external collaborators (backend
replies, subprocess outcomes, user confirmation input, the cooperative
stop flag, wall-clock timestamps).  Each function additionally returns a
trace of observable events (which backend requests were composed, which
commands were handed to the executor, which confirmations were asked),
so that the specification claims about call counts and execution order
can be stated.

External code that is not part of the repository is kept abstract:
`json.loads` (Python stdlib) appears as the `Oracle.planLoads` /
`Oracle.summaryExtract` fields, and `get_system_info` (host
introspection) as `Config.systemInfo`.
-/

namespace CLIgent

/-! ### Python string primitives (ASCII fragment)

`pyStrip` models `str.strip()` (no arguments): it removes the maximal
runs of whitespace characters from both ends.  `pyLower` models
`str.lower()` on the ASCII letters, which is all the source ever
compares (`answer == "yes"`).  `pyLastN` models the slice `l[-n:]`. -/

def isPySpace (c : Char) : Bool :=
  c == ' ' || c == '\t' || c == '\n' || c == '\r' || c == '\x0b' || c == '\x0c'

def pyStripList (l : List Char) : List Char :=
  ((l.dropWhile isPySpace).reverse.dropWhile isPySpace).reverse

def pyStrip (s : String) : String :=
  ⟨pyStripList s.data⟩

def asciiLowerChar (c : Char) : Char :=
  if 'A' ≤ c && c ≤ 'Z' then Char.ofNat (c.toNat + 32) else c

def pyLower (s : String) : String :=
  ⟨s.data.map asciiLowerChar⟩

def pyLastN {α : Type} (n : Nat) (l : List α) : List α :=
  l.drop (l.length - n)

/-! ### `extract_json_from_markdown` (source lines 51-64)

The source runs two `re.search` calls with `re.DOTALL`:

  pattern 1 : three backticks, an optional literal `json`, greedy
              whitespace ending in a newline, a lazily captured body,
              then a newline and three backticks;
  pattern 2 : three backticks, a lazy gap up to a newline, a lazily
              captured body, then a newline and three backticks.

The functions below implement exactly the backtracking order of the
Python engine for these two patterns: `re.search` tries start positions
left to right; at a start position the optional `json` branch is tried
before the empty branch; the greedy whitespace run backtracks from its
longest newline-terminated prefix downwards; the lazy capture takes the
closest closing fence at or after the capture start. -/

def backtick3 : List Char := ['`', '`', '`']

def jsonTag : List Char := ['j', 's', 'o', 'n']

def closeFence : List Char := '\n' :: backtick3

/-- Does the literal `lit` occur in `cs` starting at index `i`? -/
def litAt (cs : List Char) (i : Nat) (lit : List Char) : Bool :=
  lit.isPrefixOf (cs.drop i)

/-- First index (counting from `i0`) at which the literal `pat` occurs
in `l`, scanning left to right. -/
def findLitAux (pat : List Char) : List Char → Nat → Option Nat
  | [], i => if pat.isEmpty then some i else none
  | c :: t, i =>
    if pat.isPrefixOf (c :: t) then some i else findLitAux pat t (i + 1)

/-- Offsets of the newline characters inside the maximal whitespace run
at the head of `l`, in ascending order.  These are the places where the
greedy pattern fragment whitespace-star-then-newline can stop. -/
def nlOffsetsAux : List Char → Nat → List Nat
  | [], _ => []
  | c :: t, i =>
    if isPySpace c then
      if c == '\n' then i :: nlOffsetsAux t (i + 1) else nlOffsetsAux t (i + 1)
    else []

/-- The same offsets in the order the backtracking engine tries them:
longest whitespace prefix first. -/
def nlCandidates (l : List Char) : List Nat :=
  (nlOffsetsAux l 0).reverse

/-- Capture-start candidates for pattern 1 at start position `i`, in
backtracking order: the `json` branch (when the literal matches) with
its whitespace alternatives longest-first, then the empty branch. -/
def p1Starts (cs : List Char) (i : Nat) : List Nat :=
  if litAt cs i backtick3 then
    (if litAt cs (i + 3) jsonTag then
      (nlCandidates (cs.drop (i + 7))).map (fun j => i + 7 + j + 1)
    else []) ++
    (nlCandidates (cs.drop (i + 3))).map (fun j => i + 3 + j + 1)
  else []

/-- Lazily match the captured body from index `p`: the body runs up to
the closest following closing fence. -/
def closeAt (cs : List Char) (p : Nat) : Option (List Char) :=
  match findLitAux closeFence (cs.drop p) 0 with
  | some k => some ((cs.drop p).take k)
  | none => none

/-- Try the capture-start candidates in order; the first one with a
closing fence wins. -/
def firstClose (cs : List Char) : List Nat → Option (List Char)
  | [] => none
  | p :: ps =>
    match closeAt cs p with
    | some g => some g
    | none => firstClose cs ps

/-- Pattern 1 anchored at start position `i`. -/
def matchP1At (cs : List Char) (i : Nat) : Option (List Char) :=
  firstClose cs (p1Starts cs i)

/-- Pattern 2 anchored at start position `i`: after the opening fence,
the lazy gap stops at the first newline; the body then runs to the
closest closing fence (if the closing fence search fails there it fails
at every later gap as well, so no further backtracking is needed). -/
def matchP2At (cs : List Char) (i : Nat) : Option (List Char) :=
  if litAt cs i backtick3 then
    match findLitAux ['\n'] (cs.drop (i + 3)) 0 with
    | some m => closeAt cs (i + 3 + m + 1)
    | none => none
  else none

/-- `re.search`: scan start positions left to right. -/
def searchAux (f : Nat → Option (List Char)) : Nat → Nat → Option (List Char)
  | 0, _ => none
  | fuel + 1, i =>
    match f i with
    | some g => some g
    | none => searchAux f fuel (i + 1)

def reSearchP1 (cs : List Char) : Option (List Char) :=
  searchAux (matchP1At cs) (cs.length + 1) 0

def reSearchP2 (cs : List Char) : Option (List Char) :=
  searchAux (matchP2At cs) (cs.length + 1) 0

/-- `extract_json_from_markdown` (source lines 51-64): prefer the first
match of pattern 1, then the first match of pattern 2, then the raw
text; the captured group is stripped. -/
def extract_json_from_markdown (text : String) : String :=
  match reSearchP1 text.data with
  | some g => ⟨pyStripList g⟩
  | none =>
    match reSearchP2 text.data with
    | some g => ⟨pyStripList g⟩
    | none => text

/-! ### Data model

`StepData` and `PlanData` are the decoded shapes of the backend's JSON
plan: the step fields default like the source's `cmd_item.get(...)`
calls, and `run = none` models an absent `"run"` key.  Decoding is the
Python stdlib's `json.loads`, which is external to the repository and
therefore abstract here (`Oracle.planLoads`); a `planLoads` result of
`none` covers both a JSON decode error and a decoded payload whose use
would raise in the untyped source (non-object reply, `"run"` that is
not a list of objects, non-string command, non-boolean confirm) — in
every such case the source aborts the surrounding turn by exception
before any history block is appended, which is the only behaviour of
those payloads this development relies on. -/

structure StepData where
  message : String := ""
  command : String := ""
  confirm : Bool := false
deriving DecidableEq, Repr

structure PlanData where
  type : String := ""
  message : String := ""
  run : Option (List StepData) := none
deriving DecidableEq, Repr

/-- One entry of `all_results` in `handle_run_commands`. -/
structure ExecResult where
  command : String
  message : String
  stdout : Option String
  stderr : Option String
deriving DecidableEq, Repr

/-- One entry of `issue_history` in `handle_error_recursion`. -/
structure Attempt where
  command : String
  stderr : String
deriving DecidableEq, Repr

/-- One entry of `history_blocks` (source lines 2260-2267). -/
structure HistoryBlock where
  timestamp : String
  user_prompt : String
  ai_plan : String
  summary : String
  mode : String
  model : String
deriving DecidableEq, Repr

/-- Outcome of one `subprocess` invocation inside `run_command`:
either the captured raw streams, or an exception message. -/
inductive RawRun where
  | ok (stdout stderr : String)
  | exn (msg : String)
deriving DecidableEq, Repr

/-- The colors used by the source to classify the current plan:
`query` is green, `task` is blue, unknown types are white; the error
resolver checks for blue or red. -/
inductive PColor where
  | green | blue | cyan | yellow | magenta | white | red
deriving DecidableEq, Repr

/-- Observable events of a run: the four kinds of backend request the
source composes (each carrying the composed prompt), a confirmation
question shown to the user, and an invocation of the command executor. -/
inductive Ev where
  | planReq (prompt : String)
  | explainReq (prompt : String)
  | issueReq (prompt : String)
  | summaryReq (prompt : String)
  | ask (command : String)
  | exec (command : String)
deriving DecidableEq, Repr

/-- Scheduled outcomes of the external collaborators, consumed in
program order: backend replies (`none` = `call_api` returned `None`),
subprocess outcomes, the strings the user types at confirmation
prompts, the values read from the `stop_requested` flag, and the
timestamps `time.strftime` returns.  An exhausted list yields the
indicated defaults. -/
structure World where
  replies : List (Option String)
  runs : List RawRun
  answers : List String
  stops : List Bool
  times : List String
deriving DecidableEq, Repr

def World.nextReply : World → Option String × World
  | ⟨[], rn, a, s, t⟩ => (none, ⟨[], rn, a, s, t⟩)
  | ⟨r :: rs, rn, a, s, t⟩ => (r, ⟨rs, rn, a, s, t⟩)

def World.nextRun : World → RawRun × World
  | ⟨r, [], a, s, t⟩ => (.exn "no scheduled outcome", ⟨r, [], a, s, t⟩)
  | ⟨r, c :: cs, a, s, t⟩ => (c, ⟨r, cs, a, s, t⟩)

def World.nextAnswer : World → String × World
  | ⟨r, c, [], s, t⟩ => ("", ⟨r, c, [], s, t⟩)
  | ⟨r, c, a :: as, s, t⟩ => (a, ⟨r, c, as, s, t⟩)

def World.nextStop : World → Bool × World
  | ⟨r, c, a, [], t⟩ => (false, ⟨r, c, a, [], t⟩)
  | ⟨r, c, a, s :: ss, t⟩ => (s, ⟨r, c, a, ss, t⟩)

def World.nextTime : World → String × World
  | ⟨r, c, a, s, []⟩ => ("", ⟨r, c, a, s, []⟩)
  | ⟨r, c, a, s, u :: us⟩ => (u, ⟨r, c, a, s, us⟩)

/-- External functions the orchestration loop uses but whose bodies are
outside the repository: `planLoads` models `json.loads` applied to a
backend reply and read through the plan field accesses; and
`summaryExtract` models the block inside `summarize_block` that tries
`json.loads(response).get("summary", response[:100])` and falls back to
`response[:100]`. -/
structure Oracle where
  planLoads : String → Option PlanData
  summaryExtract : String → String

/-- The relevant global configuration: `AGENT_MODE`, `AGENT_MODEL`, and
the string `get_system_info()` returns for this host. -/
structure Config where
  mode : String
  model : String
  systemInfo : String

/-- Python truthiness of the `stdout`/`stderr` values produced by
`run_command`: `None` and the empty string are falsy. -/
def truthyS : Option String → Bool
  | none => false
  | some s => !s.isEmpty

/-! ### Leaf effectful functions -/

/-- `ask_user_confirmation` acceptance test (source lines 1648-1656):
`input().strip().lower() == "yes"`. -/
def confirmAccepts (answer : String) : Bool :=
  pyLower (pyStrip answer) == "yes"

/-- `ask_user_confirmation` (source lines 1648-1656): consumes one line
of user input and reports whether it is affirmative. -/
def ask_user_confirmation (cmd : String) (w : World) : Bool × World × List Ev :=
  let (ans, w) := w.nextAnswer
  (confirmAccepts ans, w, [.ask cmd])

/-- `run_command` (source lines 1626-1645): runs the command line
through a shell.  On an exception the pair `(None, str(e))` is
returned; otherwise `stop_requested` is consulted and, if set, the
synthetic stopped message is returned; otherwise the streams are
stripped, an empty raw stderr becoming `None`. -/
def run_command (cmd : String) (w : World) : (Option String × Option String) × World × List Ev :=
  let (raw, w) := w.nextRun
  match raw with
  | .exn e => ((none, some e), w, [.exec cmd])
  | .ok out err =>
    let (stop, w) := w.nextStop
    if stop then ((none, some "Stopped by user"), w, [.exec cmd])
    else ((some (pyStrip out), if err == "" then none else some (pyStrip err)), w, [.exec cmd])

/-! ### Prompt composition -/

/-- The `results_text` loop of `get_final_explanation` (source lines
1890-1896). -/
def resultsText (results : List ExecResult) : String :=
  results.foldl (fun acc r =>
    acc ++ "\nCommand: " ++ r.command ++ "\n"
        ++ "Purpose: " ++ r.message ++ "\n"
        ++ "STDOUT: " ++ (if truthyS r.stdout then r.stdout.getD "" else "(empty)") ++ "\n"
        ++ "STDERR: " ++ (if truthyS r.stderr then r.stderr.getD "" else "(none)") ++ "\n") ""

/-- The `explain_prompt` f-string of `get_final_explanation` (source
lines 1898-1908). -/
def buildExplainPrompt (user_prompt : String) (results : List ExecResult) : String :=
  "You are a SYSTEM AGENT.\nUser's question: " ++ user_prompt
    ++ "\n\nYou ran these commands and got these results:\n" ++ resultsText results
    ++ "\n\nBased on ALL the results above, provide a clear answer to the user's original question.\nBe concise and direct. Use 2-4 sentences maximum.\nVERY IMPORTANT! You MUST respond in the same language as the User prompt.\n\nUse the command results above to provide your answer."

/-- `get_final_explanation` (source lines 1887-1913): composes the
consolidated prompt over all recorded results and issues one backend
call. -/
def get_final_explanation (user_prompt : String) (results : List ExecResult)
    (_parent_data : PlanData) (w : World) : Option String × World × List Ev :=
  let prompt := buildExplainPrompt user_prompt results
  let (r, w) := w.nextReply
  (r, w, [.explainReq prompt])

/-- The `attempts_text` block of `handle_error_recursion` (source lines
1938-1944): rendered from the slice `issue_history[-20:]`. -/
def attemptsText (issue_history : List Attempt) : String :=
  if issue_history.isEmpty then ""
  else
    (pyLastN 20 issue_history).foldl (fun acc item =>
      acc ++ "- Command: " ++ item.command ++ "\n  Error: " ++ item.stderr ++ "\n")
      "Previous failed attempts:\n"

/-- The `planned_commands` join of `handle_error_recursion` (source
lines 1933-1935). -/
def plannedCommands (pd : PlanData) : String :=
  String.intercalate "\n" ((pd.run.getD []).map (fun c => c.command))

/-- The `issue_prompt` f-string of `handle_error_recursion` (source
lines 1947-1978). -/
def buildIssuePrompt (system_info user_prompt : String) (pd : PlanData)
    (failed_cmd stderr : String) (issue_history : List Attempt) : String :=
  "You are a SYSTEM AGENT.\nThis is the system: " ++ system_info
    ++ "\nYour mission: " ++ user_prompt
    ++ "\nVERY IMPORTANT! You MUST respond in the same language as the User prompt.\n\nPlanned commands to complete the mission:\n"
    ++ plannedCommands pd
    ++ "\n\nCurrent problem:\nCommand: " ++ failed_cmd
    ++ "\nError: " ++ stderr ++ "\n\n"
    ++ attemptsText issue_history
    ++ "\n\nAnalyze the error and provide a solution command to fix it.\nKeep in mind you are an agent using only CLI, never TUI tools (no htop, nano, mc, etc).\nFor dangerous commands, set 'confirm' to true.\n\nRespond ONLY with valid JSON:\n\x7b\n    \"type\": \"issue\",\n    \"message\": \"Brief explanation of the fix approach\",\n    \"run\": [\n        \x7b\n            \"message\": \"What this command does\",\n            \"command\": \"the actual command\",\n            \"confirm\": false\n        \x7d\n    ]\n\x7d\n\nUse the terminal history and previous attempts above to understand the context."

/-! ### Error resolver (source lines 1916-2046)

`handle_error_recursion` recurses with `depth + 1` under the guard
`depth >= 10`, so each call makes at most `10 - depth` further levels.
`herAux` is the same function driven by that measure to make it
structurally recursive (`herAux (10 - depth) … depth …` is the source
function; `handle_error_recursion_eq` below re-states it in exactly the
source's shape).  Note that every branch of the source's loop over the
resolution steps returns, so only the first step of a resolution plan
is ever examined; the translation matches only the head of the list.
The returned attempt list models the source's in-place `append` on the
shared `issue_history` list. -/

def herAux (O : Oracle) (cfg : Config) :
    Nat → String → PlanData → String → String → Option String → Nat → List Attempt → World →
    Bool × World × List Ev × List Attempt
  | 0, _, _, _, _, _, _, hist, w => (false, w, [], hist)
  | gas + 1, up, pd, failed_cmd, stderr, _stdout, depth, hist, w =>
    let prompt := buildIssuePrompt cfg.systemInfo up pd failed_cmd stderr hist
    let (resp, w) := w.nextReply
    match resp with
    | none => (false, w, [.issueReq prompt], hist)
    | some response =>
      let (stop, w) := w.nextStop
      if stop then (false, w, [.issueReq prompt], hist)
      else
        match O.planLoads response with
        | none => (false, w, [.issueReq prompt], hist)
        | some issue_data =>
          match issue_data.run with
          | none => (false, w, [.issueReq prompt], hist)
          | some [] => (false, w, [.issueReq prompt], hist)
          | some (item :: _) =>
            let (stop2, w) := w.nextStop
            if stop2 then (false, w, [.issueReq prompt], hist)
            else
              let afterGate := fun (w : World) (tr0 : List Ev) =>
                let ((stdout_new, stderr_new), w, tr1) := run_command item.command w
                match stderr_new with
                | some e =>
                  if e.isEmpty then (true, w, [.issueReq prompt] ++ tr0 ++ tr1, hist)
                  else
                    let hist := hist ++ [⟨item.command, e⟩]
                    let (b, w, tr2, hist) :=
                      herAux O cfg gas up pd item.command e stdout_new (depth + 1) hist w
                    (b, w, [.issueReq prompt] ++ tr0 ++ tr1 ++ tr2, hist)
                | none => (true, w, [.issueReq prompt] ++ tr0 ++ tr1, hist)
              if item.confirm then
                let (ok, w, trAsk) := ask_user_confirmation item.command w
                if ok then afterGate w trAsk
                else (false, w, [.issueReq prompt] ++ trAsk, hist)
              else afterGate w []

/-- `handle_error_recursion` (source lines 1916-2046). -/
def handle_error_recursion (O : Oracle) (cfg : Config) (user_prompt : String)
    (parent_data : PlanData) (failed_cmd stderr : String) (stdout : Option String)
    (depth : Nat) (issue_history : List Attempt) (w : World) :
    Bool × World × List Ev × List Attempt :=
  herAux O cfg (10 - depth) user_prompt parent_data failed_cmd stderr stdout depth issue_history w

/-! ### Execution pipeline (source lines 1802-1884)

`hrcAux` is the loop of `handle_run_commands` with the local
`all_results` accumulator made explicit; `handle_run_commands` starts
it from the empty list, as the source initializes `all_results = []`.
The source discards `all_results` on its early `return False` paths;
the translation returns the accumulator in every case so that the
recorded results can be spoken about, which adds no behaviour. -/

def hrcAux (O : Oracle) (cfg : Config) (color : PColor) (depth : Nat)
    (user_prompt : String) (parent_data : PlanData) :
    List StepData → List ExecResult → World → Bool × List ExecResult × World × List Ev
  | [], acc, w =>
    if !acc.isEmpty && color == .green then
      let (_expl, w, tr) := get_final_explanation user_prompt acc parent_data w
      (true, acc, w, tr)
    else (true, acc, w, [])
  | item :: rest, acc, w =>
    let (stop, w) := w.nextStop
    if stop then (false, acc, w, [])
    else
      let proceed := fun (acc : List ExecResult) (w : World) (tr0 : List Ev) =>
        let (b, res, w, tr) := hrcAux O cfg color depth user_prompt parent_data rest acc w
        (b, res, w, tr0 ++ tr)
      let afterGate := fun (w : World) (tr0 : List Ev) =>
        let ((stdout, stderr), w, tr1) := run_command item.command w
        let (stop2, w) := w.nextStop
        if stop2 then (false, acc, w, tr0 ++ tr1)
        else
          let record := ExecResult.mk item.command item.message stdout stderr
          if truthyS stderr then
            if color == .blue || color == .red then
              let (success, w, tr2, _hist) :=
                handle_error_recursion O cfg user_prompt parent_data item.command
                  (stderr.getD "") stdout depth [] w
              if !success then (false, acc, w, tr0 ++ tr1 ++ tr2)
              else proceed (acc ++ [record]) w (tr0 ++ tr1 ++ tr2)
            else proceed (acc ++ [record]) w (tr0 ++ tr1)
          else proceed (acc ++ [record]) w (tr0 ++ tr1)
      if item.confirm then
        let (ok, w, trAsk) := ask_user_confirmation item.command w
        if ok then afterGate w trAsk
        else proceed acc w trAsk
      else afterGate w []

/-- `handle_run_commands` (source lines 1802-1884). -/
def handle_run_commands (O : Oracle) (cfg : Config) (run_list : List StepData)
    (color : PColor) (depth : Nat) (user_prompt : String) (parent_data : PlanData)
    (w : World) : Bool × List ExecResult × World × List Ev :=
  hrcAux O cfg color depth user_prompt parent_data run_list [] w

/-! ### History summarizer and context builder -/

/-- The numbered history entries of the conversation-history section
(source lines 2063-2066), enumerating from 1. -/
def historyEntries : Nat → List HistoryBlock → String
  | _, [] => ""
  | i, b :: t =>
    toString i ++ ") User: " ++ b.user_prompt ++ "\n   Agent: " ++ b.summary ++ "\n"
      ++ historyEntries (i + 1) t

/-- The `history_text` block of `process_user_prompt` (source lines
2058-2067): empty when there are no blocks. -/
def historyText (hist : List HistoryBlock) : String :=
  if hist.isEmpty then ""
  else
    "For reference, this is our conversation history summarized. Do not interpret this as part of the user question or task.\n"
      ++ "This is for you to understand what we've done already so that you can give better answers and solutions to questions and tasks.\n"
      ++ "These history entries are added in chronological order, where 1 is oldest:\n"
      ++ historyEntries 1 hist ++ "\n"

/-- The `main_prompt` of `process_user_prompt` (source lines 2070-2126):
the ASK-mode template or the WORK-mode template, with the system info,
the user prompt and the serialized history interpolated. -/
def buildMainPrompt (cfg : Config) (user_prompt : String) (hist : List HistoryBlock) : String :=
  if cfg.mode == "ASK" then
    "You are a helpful AI assistant. The user is asking a question and wants a detailed, informative answer.\n\nSystem context: "
      ++ cfg.systemInfo ++ "\nUser question: " ++ user_prompt ++ "\n\n"
      ++ historyText hist
      ++ "\nProvide a comprehensive answer to the user's question. Be detailed and helpful.\nVERY IMPORTANT! You MUST respond in the same language as the User prompt.\n\nUse this format:\n\x7b\n    \"type\": \"answer\",\n    \"message\": \"Your detailed answer to the user's question\"\n\x7d"
  else
    "You are a SYSTEM AGENT.\nSystem: " ++ cfg.systemInfo
      ++ "\nUser prompt: " ++ user_prompt
      ++ "\nVERY IMPORTANT! You MUST respond in the same language as the User prompt.\n\n"
      ++ historyText hist
      ++ "\nEvaluate if this is a QUESTION or a TASK.\n- Question: User wants information (max 5 commands to gather info)\n- Task: User wants you to perform actions\n\nFor QUESTION:\n\x7b\n    \"type\": \"query\",\n    \"message\": \"Brief description of what you WILL DO to answer (not the answer itself!)\",\n    \"run\": [\n        \x7b\n            \"message\": \"Why we're running this command\",\n            \"command\": \"the command\",\n            \"confirm\": false\n        \x7d\n    ]\n\x7d\n\nFor TASK:\n\x7b\n    \"type\": \"task\",\n    \"message\": \"Brief summary of the task plan\",\n    \"run\": [\n        \x7b\n            \"message\": \"What this step does\",\n            \"command\": \"the command\",\n            \"confirm\": false\n        \x7d\n    ]\n\x7d\n\nIMPORTANT:\n- For 'message': describe what you WILL DO, not the result (you don't know the result yet!)\n- Use only CLI commands, never TUI (no htop, nano, mc, mysql_secure_installation, etc)\n- Set 'confirm': true for dangerous/system-changing commands\n- Escape JSON properly"

/-- The `summary_prompt` of `summarize_block` (source lines 2196-2206). -/
def buildSummaryPrompt (block_text : String) : String :=
  "You are a SYSTEM AGENT. Analyze this terminal session block and provide a very concise one-line summary.\n\nTERMINAL BLOCK:\n"
    ++ block_text
    ++ "\n\nProvide a one-line summary in the same language as the user, focusing on:\n- What was done\n- What the result was\n- Key findings or issues\n\nKeep it extremely brief (max 15 words)."

/-- `summarize_block` (source lines 2194-2218): one backend call; a
`None` reply yields the fixed fallback summary. -/
def summarize_block (O : Oracle) (block_text : String) (w : World) : String × World × List Ev :=
  let prompt := buildSummaryPrompt block_text
  let (resp, w) := w.nextReply
  match resp with
  | some r => (O.summaryExtract r, w, [.summaryReq prompt])
  | none => ("No summary available", w, [.summaryReq prompt])

/-- The eviction step of `create_history_block` (source lines
2269-2273): append, then keep only the last 50 when the length
exceeds 50. -/
def trimTo50 (l : List HistoryBlock) : List HistoryBlock :=
  if l.length > 50 then pyLastN 50 l else l

/-- `create_history_block` (source lines 2221-2276).  The source
reassembles `block_text` from the on-disk session transcript (an
external presentation collaborator); that reconstructed text enters
here as the `block_text` argument and only flows into the
summarization prompt.  `save_state` is the opaque persistence
collaborator and has no in-memory effect. -/
def create_history_block (O : Oracle) (cfg : Config) (user_prompt ai_message block_text : String)
    (hist : List HistoryBlock) (w : World) : List HistoryBlock × World × List Ev :=
  let (summary, w, tr) := summarize_block O block_text w
  let (ts, w) := w.nextTime
  let hb : HistoryBlock := ⟨ts, user_prompt, ai_message, summary, cfg.mode, cfg.model⟩
  (trimTo50 (hist ++ [hb]), w, tr)

/-- `process_user_prompt` (source lines 2049-2191): one turn of the
orchestration loop.  Returns the updated history list.  The source
resets `stop_requested` to `False` on entry; in this model the values
subsequently read from the flag are the `stops` schedule of `w`. -/
def process_user_prompt (O : Oracle) (cfg : Config) (user_prompt block_text : String)
    (hist : List HistoryBlock) (w : World) : List HistoryBlock × World × List Ev :=
  let prompt := buildMainPrompt cfg user_prompt hist
  let (resp, w) := w.nextReply
  match resp with
  | none => (hist, w, [.planReq prompt])
  | some response =>
    match O.planLoads (extract_json_from_markdown response) with
    | none => (hist, w, [.planReq prompt])
    | some data =>
      let runAndRecord := fun (color : PColor) =>
        let (w, tr1) :=
          match data.run with
          | some steps =>
            let (_b, _res, w, tr) :=
              handle_run_commands O cfg steps color 0 user_prompt data w
            (w, tr)
          | none => (w, ([] : List Ev))
        let (hist, w, tr2) :=
          create_history_block O cfg user_prompt data.message block_text hist w
        (hist, w, [Ev.planReq prompt] ++ tr1 ++ tr2)
      if data.type == "query" then runAndRecord .green
      else if data.type == "task" then runAndRecord .blue
      else if data.type == "direct" then (hist, w, [.planReq prompt])
      else if data.type == "knowledge" then (hist, w, [.planReq prompt])
      else if data.type == "answer" then
        let (hist, w, tr2) :=
          create_history_block O cfg user_prompt data.message block_text hist w
        (hist, w, [Ev.planReq prompt] ++ tr2)
      else runAndRecord .white

/-! ### Trace observations -/

/-- The prompts of the consolidated-explanation requests in a trace. -/
def explainReqs (tr : List Ev) : List String :=
  tr.filterMap fun ev => match ev with | .explainReq p => some p | _ => none

/-- The number of repair requests the error resolver issued in a trace. -/
def issueReqCount (tr : List Ev) : Nat :=
  tr.countP fun ev => match ev with | .issueReq _ => true | _ => false

/-- The command lines handed to the command executor in a trace, in
order. -/
def execCmds (tr : List Ev) : List String :=
  tr.filterMap fun ev => match ev with | .exec c => some c | _ => none

/-! ### Lemmas about the markdown extraction -/

theorem findLitAux_none {pat : List Char} (hp : pat ≠ []) :
    ∀ (l : List Char) (i : Nat), findLitAux pat l i = none →
      ∀ k, pat.isPrefixOf (l.drop k) = false := by
  intro l
  induction l with
  | nil =>
    intro i _ k
    rcases pat with _ | ⟨c, t⟩
    · exact absurd rfl hp
    · simp [List.isPrefixOf]
  | cons c t ih =>
    intro i h k
    rw [findLitAux] at h
    by_cases hpre : pat.isPrefixOf (c :: t)
    · simp [hpre] at h
    · simp [hpre] at h
      match k with
      | 0 => simp only [List.drop_zero]; exact Bool.eq_false_iff.mpr hpre
      | k + 1 => simpa using ih (i + 1) h k

theorem searchAux_none {f : Nat → Option (List Char)} (h : ∀ j, f j = none) :
    ∀ (fuel i : Nat), searchAux f fuel i = none := by
  intro fuel
  induction fuel with
  | zero => intro i; rfl
  | succ n ih => intro i; rw [searchAux, h i]; exact ih (i + 1)

theorem extract_eq_of_noFence (s : String)
    (h : findLitAux backtick3 s.data 0 = none) :
    extract_json_from_markdown s = s := by
  have h3 : ∀ i, litAt s.data i backtick3 = false := by
    intro i
    have := @findLitAux_none backtick3 (by simp [backtick3]) s.data 0 h i
    simpa [litAt] using this
  have h1 : ∀ i, matchP1At s.data i = none := by
    intro i
    simp [matchP1At, p1Starts, h3 i, firstClose]
  have h2 : ∀ i, matchP2At s.data i = none := by
    intro i
    simp [matchP2At, h3 i]
  rw [extract_json_from_markdown, reSearchP1, reSearchP2,
    searchAux_none h1, searchAux_none h2]

/-! ### Claim C7: plan extraction order -/

/-- C7 counterexample: the claim says extraction first takes the
content of a fenced block tagged `json` when one exists.  On a text
that contains an untagged fenced block (content `plain`) followed by a
json-tagged fenced block (content `{"a":1}`), the source's first
pattern — whose `json` tag is optional — matches the earlier untagged
block, so extraction returns `plain` and not the json-tagged content. -/
theorem C7_counterexample :
    (findLitAux ("```json\n\x7b\"a\":1\x7d\n```".data)
        "pre\n```\nplain\n```\nmid\n```json\n\x7b\"a\":1\x7d\n```".data 0).isSome = true ∧
    extract_json_from_markdown "pre\n```\nplain\n```\nmid\n```json\n\x7b\"a\":1\x7d\n```"
      = "plain" ∧
    "plain" ≠ "\x7b\"a\":1\x7d" := by
  refine ⟨by decide, by decide, by decide⟩

/-- C7 (amended): for every raw backend text, plan extraction first
takes the content of the leftmost fenced code block whose opening fence
is bare or tagged `json` — an earlier untagged block is taken even when
a json-tagged block occurs later — otherwise the content of the first
fenced code block of any tag, otherwise the raw text verbatim; in
particular on fence-free input the extraction step returns its input
unchanged (first conjunct, universally), and the remaining conjuncts
exhibit the three selection clauses. -/
theorem C7_theorem :
    (∀ s : String, findLitAux backtick3 s.data 0 = none →
      extract_json_from_markdown s = s) ∧
    extract_json_from_markdown "pre\n```\nplain\n```\nmid\n```json\n\x7b\"a\":1\x7d\n```"
      = "plain" ∧
    extract_json_from_markdown "```json\n\x7b\"a\":1\x7d\n```" = "\x7b\"a\":1\x7d" ∧
    extract_json_from_markdown "```python\ncode\n```" = "code" := by
  refine ⟨extract_eq_of_noFence, by decide, by decide, by decide⟩

/-- C7 witness: the fence-free clause of `C7_theorem` evaluated at a
concrete fence-free input. -/
theorem C7_witness :
    findLitAux backtick3 "no fences at all".data 0 = none ∧
    extract_json_from_markdown "no fences at all" = "no fences at all" :=
  ⟨by decide, C7_theorem.1 "no fences at all" (by decide)⟩

/-! ### Claim C4: bounded FIFO history -/

/-- The history block `create_history_block` constructs for a turn:
its summary comes from the one summarization call, its timestamp from
the clock, and the rest from the turn's data and the configuration. -/
def newBlock (O : Oracle) (cfg : Config) (up msg bt : String) (w : World) : HistoryBlock :=
  ⟨((summarize_block O bt w).2.1.nextTime).1, up, msg,
    (summarize_block O bt w).1, cfg.mode, cfg.model⟩

theorem trimTo50_eq (l : List HistoryBlock) : trimTo50 l = pyLastN 50 l := by
  rw [trimTo50]
  split
  · rfl
  · have h : l.length - 50 = 0 := by omega
    rw [pyLastN, h, List.drop_zero]

theorem create_history_block_fst (O : Oracle) (cfg : Config) (up msg bt : String)
    (hist : List HistoryBlock) (w : World) :
    (create_history_block O cfg up msg bt hist w).1
      = pyLastN 50 (hist ++ [newBlock O cfg up msg bt w]) := by
  rw [show (create_history_block O cfg up msg bt hist w).1
      = trimTo50 (hist ++ [newBlock O cfg up msg bt w]) from rfl, trimTo50_eq]

/-- Demonstration rig for the 51-turn scenario: a backend that always
returns an `answer`-type plan, so that every turn completes and appends
exactly one block. -/
def demoAnswerOracle : Oracle := ⟨fun _ => some ⟨"answer", "m", none⟩, fun s => s⟩

def demoCfg : Config := ⟨"WORK", "m1", "sys"⟩

/-- World of one demo turn: one main reply and one summary reply. -/
def demoTurnWorld : World := ⟨[some "A", some "S"], [], [], [], []⟩

/-- The history after processing the given user prompts in sequence,
starting from an empty history. -/
def demoRunTurns (ps : List String) : List HistoryBlock :=
  ps.foldl (fun h p => (process_user_prompt demoAnswerOracle demoCfg p "bt" h demoTurnWorld).1) []

/-- Fifty-one distinct user prompts. -/
def demoPrompts : List String := (List.range 51).map (fun i => "u" ++ toString i)

set_option maxRecDepth 10000 in
/-- C4: after any history-block creation the history list has exactly
`min (previous length + 1) 50` entries, so it never exceeds 50; the
resulting list is the 50-entry tail of the previous list with the new
block appended, so eviction removes the oldest entries first and the
retained entries keep chronological insertion order; and after 51
sequential completed turns the first turn's block is gone and exactly
the last 50 prompts remain, in order. -/
theorem C4_theorem :
    (∀ (O : Oracle) (cfg : Config) (up msg bt : String) (hist : List HistoryBlock) (w : World),
      (create_history_block O cfg up msg bt hist w).1.length = min (hist.length + 1) 50) ∧
    (∀ (O : Oracle) (cfg : Config) (up msg bt : String) (hist : List HistoryBlock) (w : World),
      (newBlock O cfg up msg bt w).user_prompt = up ∧
      (create_history_block O cfg up msg bt hist w).1
        = pyLastN 50 (hist ++ [newBlock O cfg up msg bt w])) ∧
    (demoRunTurns demoPrompts).length = 50 ∧
    ("u0" ∈ (demoRunTurns demoPrompts).map (fun b => b.user_prompt)) = False ∧
    (demoRunTurns demoPrompts).map (fun b => b.user_prompt)
      = (List.range 50).map (fun i => "u" ++ toString (i + 1)) := by
  refine ⟨?_, ?_, by decide, by decide, by decide⟩
  · intro O cfg up msg bt hist w
    rw [create_history_block_fst, pyLastN, List.length_drop, List.length_append]
    simp
    omega
  · intro O cfg up msg bt hist w
    exact ⟨rfl, create_history_block_fst O cfg up msg bt hist w⟩

/-! ### Claim C1: history block per completed turn -/

theorem beq_false_of_ne {a b : String} (h : a ≠ b) : (a == b) = false := by
  cases hb : a == b
  · rfl
  · exact absurd (eq_of_beq hb) h

/-- Backend that replies with a `direct`-type plan. -/
def demoDirectOracle : Oracle := ⟨fun _ => some ⟨"direct", "hi", none⟩, fun s => s⟩

/-- C1 counterexample: a turn whose backend call succeeds and whose
reply parses to a `direct`-type plan completes normally, yet appends no
HistoryBlock: starting from an empty history the history is still
empty afterwards, where the claim demands exactly one block for every
completed turn regardless of response type. -/
theorem C1_counterexample :
    (demoDirectOracle.planLoads (extract_json_from_markdown "D")).isSome = true ∧
    (process_user_prompt demoDirectOracle demoCfg "u" "bt" []
        ⟨[some "D"], [], [], [], []⟩).1 = [] := by
  exact ⟨rfl, rfl⟩

/-- C1 (amended): for every user turn, exactly one HistoryBlock — one
carrying this turn's user prompt — is appended (with the 50-entry
eviction applied) when the parsed plan's type is `answer`, `query`,
`task`, `issue` or any other unrecognized type, regardless of execution
success or failure; no block is appended when the backend returns no
response, when the reply fails to parse, or — unlike what the original
claim states — when the plan's type is `direct` or `knowledge`. -/
theorem C1_theorem :
    ∀ (O : Oracle) (cfg : Config) (up bt resp : String) (hist : List HistoryBlock)
      (rs : List (Option String)) (cs : List RawRun) (ans : List String)
      (ss : List Bool) (ts : List String),
      (process_user_prompt O cfg up bt hist ⟨none :: rs, cs, ans, ss, ts⟩).1 = hist ∧
      (O.planLoads (extract_json_from_markdown resp) = none →
        (process_user_prompt O cfg up bt hist ⟨some resp :: rs, cs, ans, ss, ts⟩).1 = hist) ∧
      (∀ data, O.planLoads (extract_json_from_markdown resp) = some data →
        ((data.type = "direct" ∨ data.type = "knowledge") →
          (process_user_prompt O cfg up bt hist ⟨some resp :: rs, cs, ans, ss, ts⟩).1 = hist) ∧
        (data.type ≠ "direct" → data.type ≠ "knowledge" →
          ∃ w' : World,
            (process_user_prompt O cfg up bt hist ⟨some resp :: rs, cs, ans, ss, ts⟩).1
              = pyLastN 50 (hist ++ [newBlock O cfg up data.message bt w']) ∧
            (newBlock O cfg up data.message bt w').user_prompt = up)) := by
  intro O cfg up bt resp hist rs cs ans ss ts
  refine ⟨rfl, ?_, ?_⟩
  · intro hp
    simp [process_user_prompt, World.nextReply, hp]
  · intro data hp
    constructor
    · rintro (h | h)
      · have h1 : (data.type == "query") = false := by rw [h]; rfl
        have h2 : (data.type == "task") = false := by rw [h]; rfl
        have h3 : (data.type == "direct") = true := by rw [h]; rfl
        simp [process_user_prompt, World.nextReply, hp, h1, h2, h3]
      · have h1 : (data.type == "query") = false := by rw [h]; rfl
        have h2 : (data.type == "task") = false := by rw [h]; rfl
        have h3 : (data.type == "direct") = false := by rw [h]; rfl
        have h4 : (data.type == "knowledge") = true := by rw [h]; rfl
        simp [process_user_prompt, World.nextReply, hp, h1, h2, h3, h4]
    · intro hd hk
      have h3 : (data.type == "direct") = false := beq_false_of_ne hd
      have h4 : (data.type == "knowledge") = false := beq_false_of_ne hk
      by_cases hq : data.type = "query"
      · have h1 : (data.type == "query") = true := by rw [hq]; rfl
        simp [process_user_prompt, World.nextReply, hp, h1]
        exact ⟨_, create_history_block_fst _ _ _ _ _ _ _, rfl⟩
      · have h1 : (data.type == "query") = false := beq_false_of_ne hq
        by_cases ht : data.type = "task"
        · have h2 : (data.type == "task") = true := by rw [ht]; rfl
          simp [process_user_prompt, World.nextReply, hp, h1, h2]
          exact ⟨_, create_history_block_fst _ _ _ _ _ _ _, rfl⟩
        · have h2 : (data.type == "task") = false := beq_false_of_ne ht
          by_cases ha : data.type = "answer"
          · have h5 : (data.type == "answer") = true := by rw [ha]; rfl
            simp [process_user_prompt, World.nextReply, hp, h1, h2, h3, h4, h5]
            exact ⟨_, create_history_block_fst _ _ _ _ _ _ _, rfl⟩
          · have h5 : (data.type == "answer") = false := beq_false_of_ne ha
            simp [process_user_prompt, World.nextReply, hp, h1, h2, h3, h4, h5]
            exact ⟨_, create_history_block_fst _ _ _ _ _ _ _, rfl⟩

/-- C1 witness: the amended theorem applied to a concrete `answer`
turn: the empty history grows to the single block of that turn. -/
theorem C1_witness :
    ∃ w' : World,
      (process_user_prompt demoAnswerOracle demoCfg "u" "bt" []
          ⟨some "A" :: [some "S"], [], [], [], []⟩).1
        = pyLastN 50 ([] ++ [newBlock demoAnswerOracle demoCfg "u" "m" "bt" w']) ∧
      (newBlock demoAnswerOracle demoCfg "u" "m" "bt" w').user_prompt = "u" :=
  ((C1_theorem demoAnswerOracle demoCfg "u" "bt" "A" [] [some "S"] [] [] [] []).2.2
      ⟨"answer", "m", none⟩ rfl).2 (by decide) (by decide)

/-! ### Claim C2: confirmation gating in the pipeline -/

theorem run_command_trace (cmd : String) (w : World) :
    (run_command cmd w).2.2 = [.exec cmd] := by
  rw [run_command]
  rcases w with ⟨rs, cs, a, s, t⟩
  rcases cs with _ | ⟨c, cs⟩
  · rfl
  · rcases c with ⟨out, err⟩ | e
    · rcases s with _ | ⟨b, ss⟩
      · rfl
      · rcases b <;> rfl
    · rfl

/-- C2: for every Step with `confirm = true` (at the head of the
remaining run list, with the stop flag unset), the pipeline first asks
for confirmation; if the user's input is not accepted
(`strip().lower() != "yes"`) the step's command is never handed to the
executor and the pipeline simply continues with the remaining steps —
the outcome is that of processing the rest, with only the confirmation
question prepended to the trace, so the plan is never aborted and no
overall failure is recorded; if the input is accepted, the executor is
invoked on the step's command directly after the question. -/
theorem C2_theorem :
    ∀ (O : Oracle) (cfg : Config) (color : PColor) (depth : Nat) (up : String)
      (pd : PlanData) (s : StepData) (rest : List StepData) (acc : List ExecResult)
      (rs : List (Option String)) (cs : List RawRun) (ans : String) (as' : List String)
      (ss : List Bool) (ts : List String),
      s.confirm = true →
      (confirmAccepts ans = false →
        hrcAux O cfg color depth up pd (s :: rest) acc ⟨rs, cs, ans :: as', false :: ss, ts⟩
          = (let r := hrcAux O cfg color depth up pd rest acc ⟨rs, cs, as', ss, ts⟩
             (r.1, r.2.1, r.2.2.1, Ev.ask s.command :: r.2.2.2))) ∧
      (confirmAccepts ans = true →
        ∃ tr', (hrcAux O cfg color depth up pd (s :: rest) acc
            ⟨rs, cs, ans :: as', false :: ss, ts⟩).2.2.2
          = Ev.ask s.command :: Ev.exec s.command :: tr') := by
  intro O cfg color depth up pd s rest acc rs cs ans as' ss ts hc
  constructor
  · intro hAcc
    simp [hrcAux, World.nextStop, World.nextAnswer, ask_user_confirmation, hc, hAcc]
  · intro hAcc
    simp only [hrcAux, World.nextStop, World.nextAnswer, ask_user_confirmation, hc, hAcc,
      if_true, if_false]
    rcases hrw : run_command s.command ⟨rs, cs, as', ss, ts⟩ with ⟨⟨stdout, stderr⟩, w2, tr1⟩
    have htr1 : tr1 = [Ev.exec s.command] := by
      have := run_command_trace s.command ⟨rs, cs, as', ss, ts⟩
      rw [hrw] at this
      exact this
    subst htr1
    simp only [hrw]
    repeat' split
    all_goals simp_all

/-- C2 witness: a confirm-gated destructive step whose confirmation is
answered `no`: the step is skipped and the (empty) remainder is
processed unchanged. -/
theorem C2_witness :
    hrcAux demoAnswerOracle demoCfg .blue 0 "u" ⟨"task", "m", none⟩
        [⟨"m", "rm -rf /x", true⟩] [] ⟨[], [], ["no"], [false], []⟩
      = (let r := hrcAux demoAnswerOracle demoCfg .blue 0 "u" ⟨"task", "m", none⟩ [] []
            ⟨[], [], [], [], []⟩
         (r.1, r.2.1, r.2.2.1, Ev.ask "rm -rf /x" :: r.2.2.2)) :=
  (C2_theorem demoAnswerOracle demoCfg .blue 0 "u" ⟨"task", "m", none⟩
      ⟨"m", "rm -rf /x", true⟩ [] [] [] [] "no" [] [] [] rfl).1 (by decide)

/-! ### Claim C3: bounded resolver recursion -/

/-- The translation satisfies exactly the source's recursive equation:
guard `depth >= 10` gives up immediately, and otherwise the body runs
with the recursive call at `depth + 1` — this re-states
`handle_error_recursion` in the source's own shape, discharging the
measure-driven `herAux` encoding. -/
theorem handle_error_recursion_src (O : Oracle) (cfg : Config) (up : String) (pd : PlanData)
    (fc st : String) (sd : Option String) (d : Nat) (hist : List Attempt) (w : World) :
    handle_error_recursion O cfg up pd fc st sd d hist w
      = if 10 ≤ d then (false, w, [], hist)
        else
          (let prompt := buildIssuePrompt cfg.systemInfo up pd fc st hist
           let (resp, w) := w.nextReply
           match resp with
           | none => (false, w, [.issueReq prompt], hist)
           | some response =>
             let (stop, w) := w.nextStop
             if stop then (false, w, [.issueReq prompt], hist)
             else
               match O.planLoads response with
               | none => (false, w, [.issueReq prompt], hist)
               | some issue_data =>
                 match issue_data.run with
                 | none => (false, w, [.issueReq prompt], hist)
                 | some [] => (false, w, [.issueReq prompt], hist)
                 | some (item :: _) =>
                   let (stop2, w) := w.nextStop
                   if stop2 then (false, w, [.issueReq prompt], hist)
                   else
                     let afterGate := fun (w : World) (tr0 : List Ev) =>
                       let ((stdout_new, stderr_new), w, tr1) := run_command item.command w
                       match stderr_new with
                       | some e =>
                         if e.isEmpty then (true, w, [.issueReq prompt] ++ tr0 ++ tr1, hist)
                         else
                           let hist := hist ++ [⟨item.command, e⟩]
                           let (b, w, tr2, hist) :=
                             handle_error_recursion O cfg up pd item.command e stdout_new
                               (d + 1) hist w
                           (b, w, [.issueReq prompt] ++ tr0 ++ tr1 ++ tr2, hist)
                       | none => (true, w, [.issueReq prompt] ++ tr0 ++ tr1, hist)
                     if item.confirm then
                       let (ok, w, trAsk) := ask_user_confirmation item.command w
                       if ok then afterGate w trAsk
                       else (false, w, [.issueReq prompt] ++ trAsk, hist)
                     else afterGate w []) := by
  by_cases h : 10 ≤ d
  · rw [if_pos h, handle_error_recursion, show 10 - d = 0 from by omega]
    rfl
  · rw [if_neg h, handle_error_recursion, show 10 - d = (10 - (d + 1)) + 1 from by omega]
    rfl

/-- A world scheduling `k` resolution levels in which every proposed
fix command fails with raw stderr `e`. -/
def chainWorld (f sout e : String) (k : Nat) : World :=
  ⟨List.replicate k (some f), List.replicate k (.ok sout e), [], [], []⟩

theorem herAux_chain (O : Oracle) (cfg : Config) (up : String) (pd : PlanData)
    (f sout e : String) (ip : PlanData) (item : StepData) (tl : List StepData)
    (hO : O.planLoads f = some ip) (hrun : ip.run = some (item :: tl))
    (hcf : item.confirm = false) (he1 : (e == "") = false)
    (he2 : (pyStrip e).isEmpty = false) :
    ∀ (gas k : Nat), gas ≤ k →
      ∀ (fc st : String) (sd : Option String) (d : Nat) (hist : List Attempt),
      (herAux O cfg gas up pd fc st sd d hist (chainWorld f sout e k)).1 = false ∧
      (herAux O cfg gas up pd fc st sd d hist (chainWorld f sout e k)).2.1
        = chainWorld f sout e (k - gas) ∧
      issueReqCount (herAux O cfg gas up pd fc st sd d hist (chainWorld f sout e k)).2.2.1 = gas ∧
      (herAux O cfg gas up pd fc st sd d hist (chainWorld f sout e k)).2.2.2
        = hist ++ List.replicate gas ⟨item.command, pyStrip e⟩ := by
  intro gas
  induction gas with
  | zero =>
    intro k hk fc st sd d hist
    simp [herAux, issueReqCount]
  | succ gas ih =>
    intro k hk fc st sd d hist
    rcases k with _ | k
    · omega
    have hk' : gas ≤ k := by omega
    have hstep := ih k hk' item.command (pyStrip e) (some (pyStrip sout)) (d + 1)
      (hist ++ [⟨item.command, pyStrip e⟩])
    simp only [chainWorld, List.replicate_succ] at *
    simp [herAux, World.nextReply, World.nextStop, hO, hrun, hcf, run_command,
      World.nextRun, he1, he2]
    rcases hstep with ⟨h1, h2, h3, h4⟩
    refine ⟨h1, h2, ?_, ?_⟩
    · simp only [issueReqCount, List.countP_cons] at h3 ⊢
      simp [h3]
    · rw [h4]
      simp

/-- C3: the resolver's depth counter is never reset — a call at depth
at least 10 gives up at once, reporting failure, consuming nothing and
issuing no repair request (first conjunct); and on every resolution
chain in which each proposed fix keeps failing (`chainWorld` schedules
such backend replies and subprocess outcomes), a resolver started at
depth `d` issues exactly `10 - d` repair requests — depth rising by
exactly one per level — records exactly `10 - d` failed attempts, and
then reports failure: started at depth 0 it halts exactly when the
depth reaches 10, so the recursion always terminates (second
conjunct). -/
theorem C3_theorem :
    (∀ (O : Oracle) (cfg : Config) (up : String) (pd : PlanData) (fc st : String)
        (sd : Option String) (d : Nat) (hist : List Attempt) (w : World),
      10 ≤ d →
      handle_error_recursion O cfg up pd fc st sd d hist w = (false, w, [], hist)) ∧
    (∀ (O : Oracle) (cfg : Config) (up : String) (pd : PlanData) (f sout e : String)
        (ip : PlanData) (item : StepData) (tl : List StepData) (fc st : String)
        (sd : Option String) (d k : Nat) (hist : List Attempt),
      O.planLoads f = some ip → ip.run = some (item :: tl) → item.confirm = false →
      (e == "") = false → (pyStrip e).isEmpty = false →
      10 - d ≤ k →
      (handle_error_recursion O cfg up pd fc st sd d hist (chainWorld f sout e k)).1 = false ∧
      issueReqCount
          (handle_error_recursion O cfg up pd fc st sd d hist (chainWorld f sout e k)).2.2.1
        = 10 - d ∧
      (handle_error_recursion O cfg up pd fc st sd d hist (chainWorld f sout e k)).2.2.2
        = hist ++ List.replicate (10 - d) ⟨item.command, pyStrip e⟩) := by
  constructor
  · intro O cfg up pd fc st sd d hist w h
    rw [handle_error_recursion, show 10 - d = 0 from by omega]
    rfl
  · intro O cfg up pd f sout e ip item tl fc st sd d k hist hO hrun hcf he1 he2 hk
    have h := herAux_chain O cfg up pd f sout e ip item tl hO hrun hcf he1 he2
      (10 - d) k hk fc st sd d hist
    exact ⟨h.1, h.2.2.1, h.2.2.2⟩

/-- Backend that always proposes the same single-step fix plan. -/
def demoFixOracle : Oracle :=
  ⟨fun _ => some ⟨"issue", "fix", some [⟨"f", "fixcmd", false⟩]⟩, fun s => s⟩

/-- C3 witness: a concrete always-failing chain started at depth 0
issues exactly 10 repair requests, records 10 attempts, and fails. -/
theorem C3_witness :
    (handle_error_recursion demoFixOracle demoCfg "u" ⟨"task", "m", none⟩ "cmd" "boom"
        (some "") 0 [] (chainWorld "F" "out" "err" 12)).1 = false ∧
    issueReqCount (handle_error_recursion demoFixOracle demoCfg "u" ⟨"task", "m", none⟩
        "cmd" "boom" (some "") 0 [] (chainWorld "F" "out" "err" 12)).2.2.1 = 10 - 0 ∧
    (handle_error_recursion demoFixOracle demoCfg "u" ⟨"task", "m", none⟩ "cmd" "boom"
        (some "") 0 [] (chainWorld "F" "out" "err" 12)).2.2.2
      = [] ++ List.replicate (10 - 0) ⟨"fixcmd", pyStrip "err"⟩ :=
  C3_theorem.2 demoFixOracle demoCfg "u" ⟨"task", "m", none⟩ "F" "out" "err"
    ⟨"issue", "fix", some [⟨"f", "fixcmd", false⟩]⟩ ⟨"f", "fixcmd", false⟩ [] "cmd" "boom"
    (some "") 0 12 [] rfl rfl rfl (by decide) (by decide) (by decide)

/-! ### Claim C5: one consolidated explanation per turn -/

theorem ask_trace (cmd : String) (w : World) :
    (ask_user_confirmation cmd w).2.2 = [.ask cmd] := rfl

theorem explainReqs_append (a b : List Ev) :
    explainReqs (a ++ b) = explainReqs a ++ explainReqs b :=
  List.filterMap_append a b _

theorem explainReqs_cons_plan (p : String) (t : List Ev) :
    explainReqs (.planReq p :: t) = explainReqs t := rfl

theorem explainReqs_cons_issue (p : String) (t : List Ev) :
    explainReqs (.issueReq p :: t) = explainReqs t := rfl

theorem explainReqs_cons_summary (p : String) (t : List Ev) :
    explainReqs (.summaryReq p :: t) = explainReqs t := rfl

theorem explainReqs_cons_ask (c : String) (t : List Ev) :
    explainReqs (.ask c :: t) = explainReqs t := rfl

theorem explainReqs_cons_exec (c : String) (t : List Ev) :
    explainReqs (.exec c :: t) = explainReqs t := rfl

theorem explainReqs_cons_explain (p : String) (t : List Ev) :
    explainReqs (.explainReq p :: t) = p :: explainReqs t := rfl

theorem herAux_explainReqs (O : Oracle) (cfg : Config) :
    ∀ (gas : Nat) (up : String) (pd : PlanData) (fc st : String) (sd : Option String)
      (d : Nat) (hist : List Attempt) (w : World),
      explainReqs (herAux O cfg gas up pd fc st sd d hist w).2.2.1 = [] := by
  intro gas
  induction gas with
  | zero => intro up pd fc st sd d hist w; simp [herAux, explainReqs]
  | succ gas ih =>
    intro up pd fc st sd d hist w
    simp only [herAux]
    repeat' split
    all_goals
      simp [explainReqs_append, explainReqs_cons_issue, explainReqs_cons_ask,
        explainReqs_cons_exec, ask_trace, run_command_trace, ih,
        show explainReqs [] = [] from rfl]


theorem hrcAux_explainReqs_notGreen (O : Oracle) (cfg : Config) (color : PColor)
    (hng : (color == PColor.green) = false) (depth : Nat) (up : String) (pd : PlanData) :
    ∀ (items : List StepData) (acc : List ExecResult) (w : World),
      explainReqs (hrcAux O cfg color depth up pd items acc w).2.2.2 = [] := by
  intro items
  induction items with
  | nil =>
    intro acc w
    simp [hrcAux, hng, show explainReqs [] = [] from rfl]
  | cons item rest ih =>
    intro acc w
    simp only [hrcAux]
    repeat' split
    all_goals
      simp [explainReqs_append, explainReqs_cons_issue, explainReqs_cons_ask,
        explainReqs_cons_exec, ask_trace, run_command_trace, ih,
        herAux_explainReqs, handle_error_recursion,
        show explainReqs [] = [] from rfl]

theorem hrcAux_explainReqs_green (O : Oracle) (cfg : Config) (depth : Nat)
    (up : String) (pd : PlanData) :
    ∀ (items : List StepData) (acc : List ExecResult) (w : World),
      explainReqs (hrcAux O cfg .green depth up pd items acc w).2.2.2
        = (if (hrcAux O cfg .green depth up pd items acc w).1
              && !(hrcAux O cfg .green depth up pd items acc w).2.1.isEmpty
           then [buildExplainPrompt up (hrcAux O cfg .green depth up pd items acc w).2.1]
           else []) := by
  intro items
  induction items with
  | nil =>
    intro acc w
    by_cases ha : acc.isEmpty
    · simp [hrcAux, ha, show explainReqs [] = [] from rfl]
    · simp [hrcAux, ha, get_final_explanation, explainReqs_cons_explain,
        show explainReqs [] = [] from rfl]
  | cons item rest ih =>
    intro acc w
    rcases hstop : w.nextStop with ⟨b0, w0⟩
    rcases b0
    · rcases hc : item.confirm
      · rcases hrun : run_command item.command w0 with ⟨⟨o, e⟩, w2, trR⟩
        have htrR : trR = [Ev.exec item.command] := by
          have := run_command_trace item.command w0; rw [hrun] at this; exact this
        subst htrR
        rcases hstop2 : w2.nextStop with ⟨b2, w3⟩
        rcases b2
        · rcases e with _ | e
          · simp [hrcAux, hstop, hc, hrun, hstop2, explainReqs_append,
              explainReqs_cons_exec, ih, show explainReqs [] = [] from rfl]
          · rcases hie : e.isEmpty
            · simp [hrcAux, hstop, hc, hrun, hstop2, hie, explainReqs_append,
                explainReqs_cons_exec, ih, show explainReqs [] = [] from rfl]
            · simp [hrcAux, hstop, hc, hrun, hstop2, hie, explainReqs_append,
                explainReqs_cons_exec, ih, show explainReqs [] = [] from rfl]
        · simp [hrcAux, hstop, hc, hrun, hstop2, explainReqs_append,
            explainReqs_cons_exec, show explainReqs [] = [] from rfl]
      · rcases hask : ask_user_confirmation item.command w0 with ⟨ok, w1, trA⟩
        have htrA : trA = [Ev.ask item.command] := by
          have := ask_trace item.command w0; rw [hask] at this; exact this
        subst htrA
        rcases ok
        · simp [hrcAux, hstop, hc, hask, explainReqs_append, explainReqs_cons_ask,
            ih, show explainReqs [] = [] from rfl]
        · rcases hrun : run_command item.command w1 with ⟨⟨o, e⟩, w2, trR⟩
          have htrR : trR = [Ev.exec item.command] := by
            have := run_command_trace item.command w1; rw [hrun] at this; exact this
          subst htrR
          rcases hstop2 : w2.nextStop with ⟨b2, w3⟩
          rcases b2
          · rcases e with _ | e
            · simp [hrcAux, hstop, hc, hask, hrun, hstop2, explainReqs_append,
                explainReqs_cons_ask, explainReqs_cons_exec, ih,
                show explainReqs [] = [] from rfl]
            · rcases hie : e.isEmpty
              · simp [hrcAux, hstop, hc, hask, hrun, hstop2, hie, explainReqs_append,
                  explainReqs_cons_ask, explainReqs_cons_exec, ih,
                  show explainReqs [] = [] from rfl]
              · simp [hrcAux, hstop, hc, hask, hrun, hstop2, hie, explainReqs_append,
                  explainReqs_cons_ask, explainReqs_cons_exec, ih,
                  show explainReqs [] = [] from rfl]
          · simp [hrcAux, hstop, hc, hask, hrun, hstop2, explainReqs_append,
              explainReqs_cons_ask, explainReqs_cons_exec,
              show explainReqs [] = [] from rfl]
    · simp [hrcAux, hstop, show explainReqs [] = [] from rfl]

/-- C5 counterexample: a `task`-classified plan (blue) with a non-empty
run list whose single step completes successfully issues no
consolidated explanation request at all, where the claim demands
exactly one for every executed plan regardless of query/task
classification. -/
theorem C5_counterexample :
    (handle_run_commands demoFixOracle demoCfg [⟨"m", "c1", false⟩] .blue 0 "u"
        ⟨"task", "m", none⟩ ⟨[], [.ok "out" ""], [], [], []⟩).1 = true ∧
    (handle_run_commands demoFixOracle demoCfg [⟨"m", "c1", false⟩] .blue 0 "u"
        ⟨"task", "m", none⟩ ⟨[], [.ok "out" ""], [], [], []⟩).2.1.length = 1 ∧
    explainReqs (handle_run_commands demoFixOracle demoCfg [⟨"m", "c1", false⟩] .blue 0 "u"
        ⟨"task", "m", none⟩ ⟨[], [.ok "out" ""], [], [], []⟩).2.2.2 = [] := by
  exact ⟨rfl, rfl, rfl⟩

/-- C5 (amended): a `task`-classified plan (blue display color) never
issues a consolidated explanation request (first conjunct); a
`query`-classified plan (green) issues exactly one consolidated
explanation request — whose prompt covers all ExecutionResults recorded
in the turn — precisely when the pipeline completes and at least one
result was recorded, and none otherwise; never one request per Step
(second conjunct). -/
theorem C5_theorem :
    (∀ (O : Oracle) (cfg : Config) (depth : Nat) (up : String) (pd : PlanData)
        (items : List StepData) (w : World),
      explainReqs (handle_run_commands O cfg items .blue depth up pd w).2.2.2 = []) ∧
    (∀ (O : Oracle) (cfg : Config) (depth : Nat) (up : String) (pd : PlanData)
        (items : List StepData) (w : World),
      explainReqs (handle_run_commands O cfg items .green depth up pd w).2.2.2
        = (if (handle_run_commands O cfg items .green depth up pd w).1
              && !(handle_run_commands O cfg items .green depth up pd w).2.1.isEmpty
           then [buildExplainPrompt up (handle_run_commands O cfg items .green depth up pd w).2.1]
           else [])) := by
  constructor
  · intro O cfg depth up pd items w
    exact hrcAux_explainReqs_notGreen O cfg .blue rfl depth up pd items [] w
  · intro O cfg depth up pd items w
    exact hrcAux_explainReqs_green O cfg depth up pd items [] w

/-! ### Claims C6, C8, C10: resolver step handling -/

/-- A resolver level whose single proposed fix command runs cleanly
(empty raw stderr): the resolver returns success at once, with exactly
one repair request and one execution in its trace, the attempt history
unchanged, and nothing further consumed — independently of the
remaining resolution steps `tl`. -/
theorem her_fix_succeeds (O : Oracle) (cfg : Config) (up : String) (pd : PlanData)
    (fc st : String) (sd : Option String) (d : Nat) (hist : List Attempt)
    (f : String) (ip : PlanData) (item : StepData) (tl : List StepData)
    (rs : List (Option String)) (cs : List RawRun) (as' : List String)
    (ss : List Bool) (ts : List String) (out : String)
    (hd : d < 10) (hO : O.planLoads f = some ip) (hrun : ip.run = some (item :: tl))
    (hcf : item.confirm = false) :
    handle_error_recursion O cfg up pd fc st sd d hist
        ⟨some f :: rs, (.ok out "") :: cs, as', false :: false :: false :: ss, ts⟩
      = (true, ⟨rs, cs, as', ss, ts⟩,
          [.issueReq (buildIssuePrompt cfg.systemInfo up pd fc st hist), .exec item.command],
          hist) := by
  rw [handle_error_recursion, show 10 - d = (10 - (d + 1)) + 1 from by omega]
  simp [herAux, World.nextReply, World.nextStop, World.nextRun, run_command, hO, hrun, hcf]

/-- Backend that proposes a two-step fix plan whose first step is
confirm-gated. -/
def demoConfirmFixOracle : Oracle :=
  ⟨fun _ => some ⟨"issue", "fix", some [⟨"f", "fixcmd", true⟩, ⟨"g", "other", false⟩]⟩,
    fun s => s⟩

/-- C6 counterexample: a resolution plan with a confirm-gated first
step and a second step; the user answers `no`.  The resolver returns
failure immediately and executes nothing — in particular the second
resolution step is never reached — where the claim says rejection has
the same effect as in the pipeline (skip only that step, proceed with
the rest of the resolution). -/
theorem C6_counterexample :
    (handle_error_recursion demoConfirmFixOracle demoCfg "u" ⟨"task", "m", none⟩ "cmd" "boom"
        (some "") 0 [] ⟨[some "FC"], [.ok "x" "", .ok "y" ""], ["no"], [], []⟩).1 = false ∧
    execCmds (handle_error_recursion demoConfirmFixOracle demoCfg "u" ⟨"task", "m", none⟩
        "cmd" "boom" (some "") 0 []
        ⟨[some "FC"], [.ok "x" "", .ok "y" ""], ["no"], [], []⟩).2.2.1 = [] := by
  exact ⟨rfl, rfl⟩

/-- C6 (amended): a resolution step with `confirm = true` is gated by
the same confirmation function as a pipeline step — execution is
withheld until the input's `strip().lower()` equals `yes`, and on
acceptance the executor is invoked on the step's command right after
the question — but rejection does not merely skip that step: it aborts
the entire resolution level, returning failure with no command
executed and the attempt history unchanged. -/
theorem C6_theorem :
    ∀ (O : Oracle) (cfg : Config) (up : String) (pd : PlanData) (fc st : String)
      (sd : Option String) (d : Nat) (hist : List Attempt) (f : String) (ip : PlanData)
      (item : StepData) (tl : List StepData) (rs : List (Option String)) (cs : List RawRun)
      (ans : String) (as' : List String) (ss : List Bool) (ts : List String),
      d < 10 → O.planLoads f = some ip → ip.run = some (item :: tl) → item.confirm = true →
      (confirmAccepts ans = false →
        handle_error_recursion O cfg up pd fc st sd d hist
            ⟨some f :: rs, cs, ans :: as', false :: false :: ss, ts⟩
          = (false, ⟨rs, cs, as', ss, ts⟩,
              [.issueReq (buildIssuePrompt cfg.systemInfo up pd fc st hist), .ask item.command],
              hist)) ∧
      (confirmAccepts ans = true →
        ∃ tr', (handle_error_recursion O cfg up pd fc st sd d hist
            ⟨some f :: rs, cs, ans :: as', false :: false :: ss, ts⟩).2.2.1
          = [.issueReq (buildIssuePrompt cfg.systemInfo up pd fc st hist),
             .ask item.command, .exec item.command] ++ tr') := by
  intro O cfg up pd fc st sd d hist f ip item tl rs cs ans as' ss ts hd hO hrun hcf
  constructor
  · intro hAcc
    rw [handle_error_recursion, show 10 - d = (10 - (d + 1)) + 1 from by omega]
    simp [herAux, World.nextReply, World.nextStop, World.nextAnswer,
      ask_user_confirmation, hO, hrun, hcf, hAcc]
  · intro hAcc
    rw [handle_error_recursion, show 10 - d = (10 - (d + 1)) + 1 from by omega]
    simp only [herAux, World.nextReply, World.nextStop, World.nextAnswer,
      ask_user_confirmation, hO, hrun, hcf, hAcc, if_true, if_false]
    rcases hrw : run_command item.command ⟨rs, cs, as', ss, ts⟩ with ⟨⟨stdout, stderr⟩, w2, tr1⟩
    have htr1 : tr1 = [Ev.exec item.command] := by
      have := run_command_trace item.command ⟨rs, cs, as', ss, ts⟩
      rw [hrw] at this
      exact this
    subst htr1
    simp only [hrw]
    repeat' split
    all_goals simp_all

/-- C6 witness: the rejection clause of `C6_theorem` at a concrete
two-step fix plan with answer `no`. -/
theorem C6_witness :
    handle_error_recursion demoConfirmFixOracle demoCfg "u" ⟨"task", "m", none⟩ "cmd" "boom"
        (some "") 0 [] ⟨some "FC" :: [], [], "no" :: [], false :: false :: [], []⟩
      = (false, ⟨[], [], [], [], []⟩,
          [.issueReq (buildIssuePrompt demoCfg.systemInfo "u" ⟨"task", "m", none⟩ "cmd" "boom" []),
           .ask "fixcmd"], []) :=
  (C6_theorem demoConfirmFixOracle demoCfg "u" ⟨"task", "m", none⟩ "cmd" "boom" (some "") 0 []
    "FC" ⟨"issue", "fix", some [⟨"f", "fixcmd", true⟩, ⟨"g", "other", false⟩]⟩
    ⟨"f", "fixcmd", true⟩ [⟨"g", "other", false⟩] [] [] "no" [] [] []
    (by decide) rfl rfl rfl).1 (by decide)

/-- C8: within one resolver level, as soon as the resolution step runs
with no stderr, the resolver returns success immediately: the trace
holds only this level's repair request and that single execution, the
attempt history is unchanged, and the rest of the schedule — including
any further resolution steps `tl` of the level's plan — is untouched,
so no remaining resolution steps run and no deeper recursion occurs. -/
theorem C8_theorem :
    ∀ (O : Oracle) (cfg : Config) (up : String) (pd : PlanData) (fc st : String)
      (sd : Option String) (d : Nat) (hist : List Attempt) (f : String) (ip : PlanData)
      (item : StepData) (tl : List StepData) (rs : List (Option String)) (cs : List RawRun)
      (as' : List String) (ss : List Bool) (ts : List String) (out : String),
      d < 10 → O.planLoads f = some ip → ip.run = some (item :: tl) → item.confirm = false →
      handle_error_recursion O cfg up pd fc st sd d hist
          ⟨some f :: rs, (.ok out "") :: cs, as', false :: false :: false :: ss, ts⟩
        = (true, ⟨rs, cs, as', ss, ts⟩,
            [.issueReq (buildIssuePrompt cfg.systemInfo up pd fc st hist), .exec item.command],
            hist) := by
  intro O cfg up pd fc st sd d hist f ip item tl rs cs as' ss ts out hd hO hrun hcf
  exact her_fix_succeeds O cfg up pd fc st sd d hist f ip item tl rs cs as' ss ts out
    hd hO hrun hcf

/-- C8 witness: a concrete level whose fix succeeds, with more steps in
the plan and more schedule behind it, returning success at once. -/
theorem C8_witness :
    handle_error_recursion demoFixOracle demoCfg "u" ⟨"task", "m", none⟩ "cmd" "boom"
        (some "") 0 [⟨"old", "err"⟩]
        ⟨some "F" :: [some "X"], (.ok "fixed" "") :: [.exn "nope"], [],
          false :: false :: false :: [], []⟩
      = (true, ⟨[some "X"], [.exn "nope"], [], [], []⟩,
          [.issueReq (buildIssuePrompt demoCfg.systemInfo "u" ⟨"task", "m", none⟩ "cmd" "boom"
              [⟨"old", "err"⟩]),
           .exec "fixcmd"], [⟨"old", "err"⟩]) :=
  C8_theorem demoFixOracle demoCfg "u" ⟨"task", "m", none⟩ "cmd" "boom" (some "") 0
    [⟨"old", "err"⟩] "F"
    ⟨"issue", "fix", some [⟨"f", "fixcmd", false⟩]⟩
    ⟨"f", "fixcmd", false⟩ [] [some "X"] [.exn "nope"] [] [] [] "fixed"
    (by decide) rfl rfl rfl

/-- C10: when a pipeline step fails with stderr inside a
`task`-classified (blue) plan and the resolver's fix succeeds, the
pipeline does not re-execute the failing step: its ExecutionResult is
recorded with the original stderr intact, the trace shows the step
executed exactly once followed by the resolver's request and the fix
execution, and processing continues directly with the next steps of
the original plan from the remaining schedule. -/
theorem C10_theorem :
    ∀ (O : Oracle) (cfg : Config) (up : String) (pd : PlanData) (s1 : StepData)
      (rest : List StepData) (acc : List ExecResult) (d : Nat) (f : String) (ip : PlanData)
      (item : StepData) (tl : List StepData) (out1 e out2 : String)
      (rs : List (Option String)) (cs : List RawRun) (as' : List String)
      (ss : List Bool) (ts : List String),
      s1.confirm = false → d < 10 → O.planLoads f = some ip → ip.run = some (item :: tl) →
      item.confirm = false → (e == "") = false → (pyStrip e).isEmpty = false →
      hrcAux O cfg .blue d up pd (s1 :: rest) acc
          ⟨some f :: rs, (.ok out1 e) :: (.ok out2 "") :: cs, as',
            false :: false :: false :: false :: false :: false :: ss, ts⟩
        = (let r := hrcAux O cfg .blue d up pd rest
              (acc ++ [⟨s1.command, s1.message, some (pyStrip out1), some (pyStrip e)⟩])
              ⟨rs, cs, as', ss, ts⟩
           (r.1, r.2.1, r.2.2.1,
            [Ev.exec s1.command,
             Ev.issueReq (buildIssuePrompt cfg.systemInfo up pd s1.command (pyStrip e) []),
             Ev.exec item.command] ++ r.2.2.2)) := by
  intro O cfg up pd s1 rest acc d f ip item tl out1 e out2 rs cs as' ss ts
  intro hs1 hd hO hrun hcf he1 he2
  have hher := her_fix_succeeds O cfg up pd s1.command (pyStrip e) (some (pyStrip out1)) d []
    f ip item tl rs cs as' ss ts out2 hd hO hrun hcf
  simp [hrcAux, World.nextStop, World.nextRun, run_command, truthyS, hs1, he1, he2, hher]

/-- C10 witness: a concrete two-step task plan whose first step fails
and is repaired; the pipeline records the original stderr and proceeds
with the second step. -/
theorem C10_witness :
    hrcAux demoFixOracle demoCfg .blue 0 "u" ⟨"task", "m", none⟩
        [⟨"s1", "cmd1", false⟩, ⟨"s2", "cmd2", false⟩] []
        ⟨some "F" :: [], (.ok "o1" "boom") :: (.ok "o2" "") :: [], [],
          false :: false :: false :: false :: false :: false :: [], []⟩
      = (let r := hrcAux demoFixOracle demoCfg .blue 0 "u" ⟨"task", "m", none⟩
            [⟨"s2", "cmd2", false⟩]
            ([] ++ [⟨"cmd1", "s1", some (pyStrip "o1"), some (pyStrip "boom")⟩])
            ⟨[], [], [], [], []⟩
         (r.1, r.2.1, r.2.2.1,
          [Ev.exec "cmd1",
           Ev.issueReq (buildIssuePrompt demoCfg.systemInfo "u" ⟨"task", "m", none⟩ "cmd1"
              (pyStrip "boom") []),
           Ev.exec "fixcmd"] ++ r.2.2.2)) :=
  C10_theorem demoFixOracle demoCfg "u" ⟨"task", "m", none⟩ ⟨"s1", "cmd1", false⟩
    [⟨"s2", "cmd2", false⟩] [] 0 "F" ⟨"issue", "fix", some [⟨"f", "fixcmd", false⟩]⟩
    ⟨"f", "fixcmd", false⟩ [] "o1" "boom" "o2" [] [] [] [] []
    rfl (by decide) rfl rfl rfl (by decide) (by decide)

/-! ### Claim C9: bounded repair-request context, unbounded attempts -/

theorem attemptsText_window (a : Attempt) (h : List Attempt) (hh : 20 ≤ h.length) :
    attemptsText (a :: h) = attemptsText h := by
  have hlast : pyLastN 20 (a :: h) = pyLastN 20 h := by
    rw [pyLastN, pyLastN, List.length_cons,
      show h.length + 1 - 20 = (h.length - 20) + 1 from by omega]
    rfl
  have hne : h.isEmpty = false := by
    rcases h with _ | ⟨x, t⟩
    · simp at hh
    · rfl
  rw [attemptsText, attemptsText, hlast, hne]
  simp

theorem buildIssuePrompt_window (si up : String) (pd : PlanData) (fc st : String)
    (a : Attempt) (h : List Attempt) (hh : 20 ≤ h.length) :
    buildIssuePrompt si up pd fc st (a :: h) = buildIssuePrompt si up pd fc st h := by
  rw [buildIssuePrompt, buildIssuePrompt, attemptsText_window a h hh]

theorem herAux_hist_prefix (O : Oracle) (cfg : Config) :
    ∀ (gas : Nat) (up : String) (pd : PlanData) (fc st : String) (sd : Option String)
      (d : Nat) (hist : List Attempt) (w : World),
      hist <+: (herAux O cfg gas up pd fc st sd d hist w).2.2.2 := by
  intro gas
  induction gas with
  | zero => intro up pd fc st sd d hist w; simp [herAux]
  | succ gas ih =>
    intro up pd fc st sd d hist w
    simp only [herAux]
    repeat' split
    all_goals
      first
      | exact (List.prefix_append hist _).trans (ih _ _ _ _ _ _ _ _)
      | simp

/-- C9: the repair request composed at a resolver level renders at most
the last 20 entries of the attempt history — prepending an older
attempt to a history that already has 20 entries leaves the composed
request text unchanged, so older attempts are silently omitted (first
conjunct) — while the attempt list itself is never truncated: the
history a resolver call starts from is always a prefix of the history
it hands back, which only ever grows by appending (second conjunct). -/
theorem C9_theorem :
    (∀ (si up : String) (pd : PlanData) (fc st : String) (a : Attempt) (h : List Attempt),
      20 ≤ h.length →
      buildIssuePrompt si up pd fc st (a :: h) = buildIssuePrompt si up pd fc st h) ∧
    (∀ (O : Oracle) (cfg : Config) (up : String) (pd : PlanData) (fc st : String)
        (sd : Option String) (d : Nat) (hist : List Attempt) (w : World),
      hist <+: (handle_error_recursion O cfg up pd fc st sd d hist w).2.2.2) := by
  exact ⟨fun si up pd fc st a h hh => buildIssuePrompt_window si up pd fc st a h hh,
    fun O cfg up pd fc st sd d hist w =>
      herAux_hist_prefix O cfg (10 - d) up pd fc st sd d hist w⟩

/-- C9 witness: prepending a 21st (oldest) attempt to a 20-entry
history leaves the composed repair request unchanged. -/
theorem C9_witness :
    20 ≤ (List.replicate 20 (⟨"c", "e"⟩ : Attempt)).length ∧
    buildIssuePrompt "si" "u" ⟨"task", "m", none⟩ "fc" "st"
        (⟨"old", "x"⟩ :: List.replicate 20 ⟨"c", "e"⟩)
      = buildIssuePrompt "si" "u" ⟨"task", "m", none⟩ "fc" "st"
        (List.replicate 20 ⟨"c", "e"⟩) :=
  ⟨by decide, C9_theorem.1 "si" "u" ⟨"task", "m", none⟩ "fc" "st" ⟨"old", "x"⟩
    (List.replicate 20 ⟨"c", "e"⟩) (by decide)⟩

end CLIgent
